import Mathlib

/-!
Verification of the Dify workflow-DSL generation engine of this repository.

The definitions below are a shallow embedding of
`app/tool/dify_dsl_generator/dsl_generator.py` and
`app/tool/dify_dsl_generator/intent_analyzer/analyzer.py`:

* JSON-like dictionary values are modelled by the inductive type `JValue`
  (association lists keep Python's insertion order of dict keys).
* Python dict-shaped inputs that may lack keys (`vars` entries) are
  modelled with `Option` fields; reading a missing key is a `KeyError`,
  modelled with `Except String`.
* The generative-model client (`app/llm.py`, not part of the analysed
  sources) is abstracted: `analyze` takes the outcome of the
  `chat_completion` call and the behaviour of `json.loads` as parameters.
* Python truthiness of optional strings/lists (`user_input`,
  `node_types or [...]`) is modelled explicitly by `py_truthy_str`,
  `py_or_str`, `py_or_list`.
-/

namespace OpenManus

/-- JSON-like values (Python dicts/lists/scalars).  Object fields are kept
as an ordered association list, matching Python dict insertion order. -/
inductive JValue where
  | null : JValue
  | bool : Bool → JValue
  | num : ℚ → JValue
  | str : String → JValue
  | arr : List JValue → JValue
  | obj : List (String × JValue) → JValue

/-- Field lookup in a JSON object (first binding wins, like a Python dict
read); `none` on a missing key or a non-object. -/
def jlookup (j : JValue) (key : String) : Option JValue :=
  match j with
  | .obj fields => fields.lookup key
  | _ => none

/-- Remove one field from a JSON object (identity on non-objects); used to
compare payloads "up to" a localized field. -/
def remove_field (key : String) (j : JValue) : JValue :=
  match j with
  | .obj fields => .obj (fields.filter (fun p => p.1 ≠ key))
  | other => other

/-- A graph node as built by the generator: `{id, position, data}`. -/
structure Node where
  id : String
  position : JValue
  data : JValue

/-- A graph edge `{id, source, target}`. -/
structure Edge where
  id : String
  source : String
  target : String
deriving DecidableEq

/-- The `{nodes, edges}` dictionary returned by `_generate_workflow_graph`. -/
structure Graph where
  nodes : List Node
  edges : List Edge

/-- One entry of the caller-supplied `vars` list: a Python dict that
may or may not carry each of the keys `name`, `type`, `required`
(`none` models a missing key). -/
structure VarDict where
  name : Option String
  type : Option String
  required : Option Bool
deriving DecidableEq

/-- Python `str.upper()` restricted to the ASCII range (the only use in the
source is on ASCII node-kind tags). -/
def py_upper (s : String) : String :=
  String.mk (s.data.map Char.toUpper)

/-- Python truthiness of an optional string (`if user_input:`):
`None` and `""` are falsy. -/
def py_truthy_str : Option String → Bool
  | some s => s ≠ ""
  | none => false

/-- Python `x or d` for an optional string `x`: `None` and `""` fall back. -/
def py_or_str : Option String → String → String
  | some s, d => if s = "" then d else s
  | none, d => d

/-- Python `x or d` for an optional list `x`: `None` and `[]` fall back. -/
def py_or_list : Option (List String) → List String → List String
  | some l, d => if l = [] then d else l
  | none, d => d

/-- Python `str.find(c)` (index of the first occurrence, `-1` if absent),
on code points, for a single-character needle. -/
def py_find (s : String) (c : Char) : Int :=
  match s.data.findIdx? (· = c) with
  | some i => (i : Int)
  | none => -1

/-- Python `str.rfind(c)` (index of the last occurrence, `-1` if absent). -/
def py_rfind (s : String) (c : Char) : Int :=
  match s.data.reverse.findIdx? (· = c) with
  | some i => (s.data.length : Int) - 1 - (i : Int)
  | none => -1

/-- Python slice `s[a:b]` for `0 ≤ a ≤ b` (the only way it is used here). -/
def py_slice (s : String) (a b : Int) : String :=
  String.mk ((s.data.drop a.toNat).take (b - a).toNat)

/-! ### Node factory (`_create_*_node` and `_create_node`) -/

/-- Embedding of `_create_llm_node` from `dsl_generator.py`. -/
def create_llm_node (node_id title : String) : Node :=
  ⟨node_id, .null, .obj [
    ("title", .str title),
    ("type", .str "llm"),
    ("model", .obj [
      ("provider", .str "openai"),
      ("name", .str "gpt-3.5-turbo"),
      ("mode", .str "chat"),
      ("completion_params", .obj [
        ("temperature", .num (7/10)),
        ("top_p", .num 1),
        ("presence_penalty", .num 0),
        ("frequency_penalty", .num 0),
        ("max_tokens", .num 1000)])]),
    ("prompt_template", .arr [
      .obj [("role", .str "user"), ("text", .str "\x7b\x7b#sys.query#\x7d\x7d")]]),
    ("memory", .obj [
      ("role_prefix", .null),
      ("window", .obj [("enabled", .bool true), ("max_messages", .num 10)])]),
    ("context", .obj [
      ("enabled", .bool false),
      ("variable_selector", .null)]),
    ("vision", .obj [
      ("enabled", .bool false),
      ("variable_selector", .null),
      ("configs", .null)])]⟩

/-- Embedding of `_create_knowledge_retrieval_node` from `dsl_generator.py`. -/
def create_knowledge_retrieval_node (node_id title : String) : Node :=
  ⟨node_id, .null, .obj [
    ("title", .str title),
    ("type", .str "knowledge-retrieval"),
    ("query_variable_selector", .arr [.str "sys", .str "query"]),
    ("dataset_ids", .arr []),
    ("retrieval_mode", .str "multiple"),
    ("single_retrieval_config", .null),
    ("multiple_retrieval_config", .obj [
      ("top_k", .num 3),
      ("score_threshold", .num (1/2)),
      ("reranking_model", .null)])]⟩

/-- Embedding of `_create_http_request_node` from `dsl_generator.py`. -/
def create_http_request_node (node_id title : String) : Node :=
  ⟨node_id, .null, .obj [
    ("title", .str title),
    ("type", .str "http-request"),
    ("method", .str "get"),
    ("url", .str "https://api.example.com"),
    ("authorization", .obj [("type", .str "none"), ("config", .obj [])]),
    ("headers", .str ""),
    ("params", .str ""),
    ("body", .obj [("type", .str "none"), ("data", .str "")])]⟩

/-- Embedding of `_create_code_node` from `dsl_generator.py`. -/
def create_code_node (node_id title : String) : Node :=
  ⟨node_id, .null, .obj [
    ("title", .str title),
    ("type", .str "code"),
    ("variables", .arr []),
    ("code_language", .str "python3"),
    ("code", .str "def main():\n    return \x7b\x27result\x27: \x27Hello, World!\x27\x7d\n"),
    ("outputs", .obj [("result", .obj [("type", .str "string")])])]⟩

/-- Embedding of `_create_template_transform_node` from `dsl_generator.py`. -/
def create_template_transform_node (node_id title : String) : Node :=
  ⟨node_id, .null, .obj [
    ("title", .str title),
    ("type", .str "template-transform"),
    ("variables", .arr [
      .obj [("variable", .str "input"),
            ("value_selector", .arr [.str "sys", .str "query"])]]),
    ("template", .str "\x7b\x7b input \x7d\x7d")]⟩

/-- Embedding of `_create_answer_node` from `dsl_generator.py`. -/
def create_answer_node (node_id title : String) : Node :=
  ⟨node_id, .null, .obj [
    ("title", .str title),
    ("type", .str "answer"),
    ("answer", .str "\x7b\x7b#llm.text#\x7d\x7d")]⟩

/-- Embedding of `_create_if_else_node` from `dsl_generator.py`. -/
def create_if_else_node (node_id title : String) : Node :=
  ⟨node_id, .null, .obj [
    ("title", .str title),
    ("type", .str "if-else"),
    ("condition", .obj [
      ("operator", .str "=="),
      ("left", .obj [("type", .str "variable"),
                     ("value_selector", .arr [.str "sys", .str "query"])]),
      ("right", .obj [("type", .str "value"), ("value", .str "")])])]⟩

/-- Embedding of `_create_iteration_node` from `dsl_generator.py`. -/
def create_iteration_node (node_id title : String) : Node :=
  ⟨node_id, .null, .obj [
    ("title", .str title),
    ("type", .str "iteration"),
    ("iteration_type", .str "for-each"),
    ("for_each_config", .obj [
      ("items_variable_selector", .arr [.str "sys", .str "query"]),
      ("item_variable", .str "item")])]⟩

/-- The `titles` table of `_create_node`: per known kind, the `en` and `ja`
titles in insertion order. -/
def node_titles : List (String × List (String × String)) := [
  ("llm", [("en", "LLM"), ("ja", "言語モデル")]),
  ("knowledge-retrieval", [("en", "KNOWLEDGE RETRIEVAL"), ("ja", "知識検索")]),
  ("http-request", [("en", "HTTP REQUEST"), ("ja", "HTTPリクエスト")]),
  ("code", [("en", "CODE"), ("ja", "コード")]),
  ("template-transform", [("en", "TEMPLATE TRANSFORM"), ("ja", "テンプレート変換")]),
  ("answer", [("en", "ANSWER"), ("ja", "回答")]),
  ("if-else", [("en", "IF-ELSE"), ("ja", "条件分岐")]),
  ("iteration", [("en", "ITERATION"), ("ja", "繰り返し")])]

/-- Embedding of `_create_node` from `dsl_generator.py`: the node factory.
`titles.get(node_type, {}).get(language, node_type.upper())` then a
dispatch over the eight handled kinds, with a minimal `{title, type}`
default payload for every other tag. -/
def create_node (node_type node_id language : String) : Node :=
  let title :=
    match node_titles.lookup node_type with
    | some t => (t.lookup language).getD (py_upper node_type)
    | none => py_upper node_type
  if node_type = "llm" then create_llm_node node_id title
  else if node_type = "knowledge-retrieval" then create_knowledge_retrieval_node node_id title
  else if node_type = "http-request" then create_http_request_node node_id title
  else if node_type = "code" then create_code_node node_id title
  else if node_type = "template-transform" then create_template_transform_node node_id title
  else if node_type = "answer" then create_answer_node node_id title
  else if node_type = "if-else" then create_if_else_node node_id title
  else if node_type = "iteration" then create_iteration_node node_id title
  else ⟨node_id, .null, .obj [("title", .str title), ("type", .str node_type)]⟩

/-! ### Start node, end node, graph builder -/

/-- The body of the `for var in vars` loop of `_create_start_node`:
`var["name"]` / `var["type"]` raise `KeyError` on a missing key. -/
def format_variable (var : VarDict) : Except String JValue :=
  match var.name with
  | none => .error "\x27name\x27"
  | some n =>
    match var.type with
    | none => .error "\x27type\x27"
    | some t => .ok (.obj [
        ("variable", .str n),
        ("type", .str t),
        ("required", .bool true),
        ("default", .str "")])

/-- Embedding of `_create_start_node` from `dsl_generator.py`. -/
def create_start_node (vars : List VarDict) (language : String) :
    Except String Node := do
  let title := if language = "en" then "START" else "開始"
  let formatted_vars ← vars.mapM format_variable
  pure ⟨"start", .null, .obj [
    ("title", .str title),
    ("type", .str "start"),
    ("variables", .arr formatted_vars)]⟩

/-- Embedding of `_create_end_node` from `dsl_generator.py`. -/
def create_end_node (language : String) : Node :=
  let title := if language = "en" then "END" else "終了"
  ⟨"end", .null, .obj [
    ("title", .str title),
    ("type", .str "end"),
    ("outputs", .arr [
      .obj [("variable", .str "result"),
            ("value_selector", .arr [.str "llm", .str "text"])]])]⟩

/-- The `for i, node_type in enumerate(node_types)` loop of
`_generate_workflow_graph`, on the already-enumerated list: skips literal
`start` entries, otherwise creates the node `{node_type}_{i}` and an edge
from the previous node, and returns the final `previous_node_id`. -/
def build_nodes (language : String) :
    List (Nat × String) → String → List Node × List Edge × String
  | [], previous_node_id => ([], [], previous_node_id)
  | (i, node_type) :: rest, previous_node_id =>
    if node_type = "start" then
      build_nodes language rest previous_node_id
    else
      let node_id := node_type ++ "_" ++ Nat.repr i
      let node := create_node node_type node_id language
      let edge : Edge := ⟨previous_node_id ++ "-" ++ node_id, previous_node_id, node_id⟩
      let (ns, es, last) := build_nodes language rest node_id
      (node :: ns, edge :: es, last)

/-- Embedding of `_generate_workflow_graph` from `dsl_generator.py`: start node, loop
over `node_types`, then the auto-appended `end` node (plus its edge) when
no literal `end` entry was present. -/
def generate_workflow_graph (node_types : List String) (vars : List VarDict)
    (language : String) : Except String Graph := do
  let start_node ← create_start_node vars language
  let (ns, es, previous_node_id) := build_nodes language node_types.enum start_node.id
  if "end" ∈ node_types then
    pure ⟨start_node :: ns, es⟩
  else
    let end_node := create_end_node language
    let edge : Edge := ⟨previous_node_id ++ "-" ++ end_node.id, previous_node_id, end_node.id⟩
    pure ⟨start_node :: ns ++ [end_node], es ++ [edge]⟩

/-! ### Feature synthesizer (`_generate_features`) -/

/-- Embedding of `_generate_features` from `dsl_generator.py`: the initial dict literal
with its two conditional updates (`retriever_resource` when
`knowledge-retrieval` is requested; the localized texts keyed on
`language == "ja"`). -/
def generate_features (node_types : List String) (language : String) : JValue :=
  let retriever_resource : JValue :=
    if "knowledge-retrieval" ∈ node_types then .obj [("enabled", .bool true)]
    else .obj []
  let opening_statement : String :=
    if language = "ja" then "こんにちは、どのようにお手伝いできますか？"
    else "Hello, how can I help you today?"
  let suggested_questions : List JValue :=
    if language = "ja" then [.str "質問例1", .str "質問例2"]
    else [.str "Example question 1", .str "Example question 2"]
  .obj [
    ("opening_statement", .str opening_statement),
    ("suggested_questions", .arr suggested_questions),
    ("suggested_questions_after_answer", .arr []),
    ("speech_to_text", .bool false),
    ("text_to_speech", .bool false),
    ("file_upload", .bool false),
    ("sensitive_word_avoidance", .bool false),
    ("retriever_resource", retriever_resource)]

/-! ### Intent analyzer (`analyzer.py`) -/

/-- Embedding of `_get_default_config` from `analyzer.py`. -/
def get_default_config (language : String) : JValue :=
  if language = "ja" then
    .obj [
      ("workflow_name", .str "基本ワークフロー"),
      ("description", .str "基本的な質問応答ワークフロー"),
      ("node_types", .arr [.str "llm", .str "answer"]),
      ("variables", .arr [.obj [
        ("name", .str "質問"),
        ("type", .str "string"),
        ("required", .bool true)]])]
  else
    .obj [
      ("workflow_name", .str "Basic Workflow"),
      ("description", .str "A basic question-answering workflow"),
      ("node_types", .arr [.str "llm", .str "answer"]),
      ("variables", .arr [.obj [
        ("name", .str "query"),
        ("type", .str "string"),
        ("required", .bool true)]])]

/-- Embedding of `IntentAnalyzer.analyze` from `analyzer.py`.  The outcome of the
`await self.llm.chat_completion(...)` call (which happens *before* the
`try:` block) is abstracted as `chat_completion : Except String String`
(`error` = the client raised; `ok content` = the reply text), and
`json.loads` is abstracted as `json_loads` (`error` = it raised).  The
brace scan and the fallback to the default configuration are translated
line by line; a client error is not caught here and propagates. -/
def analyze (chat_completion : Except String String)
    (json_loads : String → Except String JValue)
    (user_input language : String) : Except String JValue :=
  match chat_completion with
  | .error e => .error e
  | .ok content =>
    let json_start := py_find content '\x7b'
    let json_end := py_rfind content '\x7d' + 1
    if json_start ≥ 0 ∧ json_end > json_start then
      let json_str := py_slice content json_start json_end
      match json_loads json_str with
      | .ok v => .ok v
      | .error _ => .ok (get_default_config language)
    else
      .ok (get_default_config language)

/-- The brace condition of `analyze`: a first `\x7b` exists and the last
`\x7d` ends strictly after it (`json_start >= 0 and json_end > json_start`). -/
def brace_ok (content : String) : Prop :=
  py_find content '\x7b' ≥ 0 ∧ py_rfind content '\x7d' + 1 > py_find content '\x7b'

instance (content : String) : Decidable (brace_ok content) := by
  unfold brace_ok; infer_instance

/-- The substring `content[json_start:json_end]` that `analyze` hands to
`json.loads` when `brace_ok content` holds. -/
def extract_json (content : String) : String :=
  py_slice content (py_find content '\x7b') (py_rfind content '\x7d' + 1)

/-! ### The tool entry point (`DifyDSLGenerator.execute`) -/

/-- The shape of the configuration dictionary that `execute` reads out of
the Intent Analyzer result with `config.get(key, fallback)`; a `none`
field models a missing key (the documented `IntentConfig` fields). -/
structure IntentConfig where
  workflow_name : Option String
  description : Option String
  node_types : Option (List String)
  vars : Option (List VarDict)

/-- The workflow definition dictionary assembled by `execute`:
`{name, description, graph, features}` (`description` may be Python
`None`). -/
structure WorkflowDefinition where
  name : String
  description : Option String
  graph : Graph
  features : JValue

/-- Modelled from the spec: `ToolResult` (from `app/tool/base.py`, which is
not among the analysed sources) carries an optional output document and an
optional error message; the spec describes the two outcomes as one
workflow document or "an explicit error result wrapping an exception
message". -/
structure ToolResult where
  output : Option WorkflowDefinition
  error : Option String

/-- Embedding of `DifyDSLGenerator.execute` from `dsl_generator.py`.  The result of the
`await self.intent_analyzer.analyze(...)` call is abstracted as
`analyzeResult` (consulted only when `user_input` is truthy); the inner
`try/except` around that call and the outer `try/except` around the whole
body are translated into the two error branches. -/
def execute (analyzeResult : Except String IntentConfig)
    (user_input workflow_name : Option String) (node_types : Option (List String))
    (description : Option String) (vars : Option (List VarDict))
    (language : String) : ToolResult :=
  let analyzed : Except String
      (Option String × Option (List String) × Option String × Option (List VarDict)) :=
    if py_truthy_str user_input then
      match analyzeResult with
      | .error e => .error ("Failed to analyze user input: " ++ e)
      | .ok config =>
        .ok (some (config.workflow_name.getD (py_or_str workflow_name "Generated Workflow")),
             some (config.node_types.getD (py_or_list node_types ["llm", "answer"])),
             some (config.description.getD (py_or_str description "")),
             some (config.vars.getD (vars.getD [])))
    else
      .ok (workflow_name, node_types, description, vars)
  match analyzed with
  | .error e => ⟨none, some e⟩
  | .ok (wn, nt, desc, vars) =>
    let workflow_name := wn.getD "Default Workflow"
    let node_types := nt.getD ["llm", "answer"]
    let vars := vars.getD []
    match generate_workflow_graph node_types vars language with
    | .error e => ⟨none, some ("Failed to generate workflow DSL: " ++ e)⟩
    | .ok graph =>
      let features := generate_features node_types language
      ⟨some ⟨workflow_name, desc, graph, features⟩, none⟩

/-! ### Helpers used by the statements and proofs -/

/-- The node id `f"{node_type}_{i}"` given to the node emitted for the
enumerated entry `(i, node_type)`. -/
def node_id_of (p : Nat × String) : String :=
  p.2 ++ "_" ++ Nat.repr p.1

/-- The enumerated entries of `node_types` that actually emit a node
(every entry except the literal `start` ones, which the loop skips). -/
def emitted (node_types : List String) : List (Nat × String) :=
  node_types.enum.filter (fun p => p.2 ≠ "start")

/-- The edges of a linear chain that starts at `prev` and then visits the
given ids in order (each edge id is `source ++ "-" ++ target`). -/
def chain_edges : String → List String → List Edge
  | _, [] => []
  | prev, x :: xs => ⟨prev ++ "-" ++ x, prev, x⟩ :: chain_edges x xs

/-- The last visited id of such a chain (`prev` when the list is empty). -/
def chain_last : String → List String → String
  | prev, [] => prev
  | _, x :: xs => chain_last x xs

/-- The start node built for an already-formatted variable list. -/
def start_node_of (formatted_variables : List JValue) (language : String) : Node :=
  ⟨"start", .null, .obj [
    ("title", .str (if language = "en" then "START" else "開始")),
    ("type", .str "start"),
    ("variables", .arr formatted_variables)]⟩

/-- The ten node-kind tags enumerated by the tool's parameter schema. -/
def known_node_kinds : List String :=
  ["start", "end", "llm", "knowledge-retrieval", "http-request", "code",
   "template-transform", "answer", "if-else", "iteration"]

/-- Concrete graphs for witnesses and counterexamples: the graph the
builder returns (the empty graph as an irrelevant default on failure). -/
def built_graph (node_types : List String) (vs : List VarDict) (language : String) : Graph :=
  (generate_workflow_graph node_types vs language).toOption.getD ⟨[], []⟩

/-- Modelled from the spec: one reading of "outputs default to surfacing
the last language-model node's `text` field" — the end node's outputs
should name the id of the last `llm` node actually emitted by the loop
(`none` when no language-model node exists).  Used only to compare the
spec's sentence with the source behaviour. -/
def spec_end_outputs (node_types : List String) : Option JValue :=
  match ((emitted node_types).filter (fun p => p.2 = "llm")).getLast? with
  | some p => some (.arr [.obj [
      ("variable", .str "result"),
      ("value_selector", .arr [.str (node_id_of p), .str "text"])]])
  | none => none

/-- Structural decimal representation of a natural number (most
significant digit first); proven equal to the character data of
`Nat.repr`, which the node ids are built from. -/
def dec_digits (n : Nat) : List Char :=
  if _h : n < 10 then [Nat.digitChar n]
  else dec_digits (n / 10) ++ [Nat.digitChar (n % 10)]
decreasing_by
  exact Nat.div_lt_self (by omega) (by omega)

/-! ### Characterization of the graph builder -/

theorem create_node_id (node_type node_id language : String) :
    (create_node node_type node_id language).id = node_id := by
  unfold create_node
  repeat first | rfl | split

theorem create_node_position (node_type node_id language : String) :
    (create_node node_type node_id language).position = .null := by
  unfold create_node
  repeat first | rfl | split

theorem create_end_node_id (language : String) :
    (create_end_node language).id = "end" := rfl

theorem build_nodes_eq (language : String) (l : List (Nat × String)) (prev : String) :
    build_nodes language l prev =
      ((l.filter (fun p => p.2 ≠ "start")).map
         (fun p => create_node p.2 (node_id_of p) language),
       chain_edges prev ((l.filter (fun p => p.2 ≠ "start")).map node_id_of),
       chain_last prev ((l.filter (fun p => p.2 ≠ "start")).map node_id_of)) := by
  induction l generalizing prev with
  | nil => rfl
  | cons hd tl ih =>
    obtain ⟨i, t⟩ := hd
    by_cases h : t = "start"
    · simp [build_nodes, h, ih]
    · simp [build_nodes, h, ih, node_id_of, chain_edges, chain_last]

theorem chain_edges_concat (prev : String) (xs : List String) (y : String) :
    chain_edges prev (xs ++ [y]) =
      chain_edges prev xs ++ [⟨chain_last prev xs ++ "-" ++ y, chain_last prev xs, y⟩] := by
  induction xs generalizing prev with
  | nil => rfl
  | cons x xs ih => simp [chain_edges, chain_last, ih]

/-! ### Decimal representations: `Nat.repr` is injective and digit-only -/

theorem digitChar_isDigit : ∀ n, n < 10 → (Nat.digitChar n).isDigit = true := by decide

theorem digitChar_inj : ∀ a, a < 10 → ∀ b, b < 10 → Nat.digitChar a = Nat.digitChar b → a = b := by
  decide

theorem dec_digits_lt (n : Nat) (h : n < 10) : dec_digits n = [Nat.digitChar n] := by
  rw [dec_digits]
  simp [h]

theorem dec_digits_ge (n : Nat) (h : ¬ n < 10) :
    dec_digits n = dec_digits (n / 10) ++ [Nat.digitChar (n % 10)] := by
  rw [dec_digits]
  simp [h]

theorem toDigitsCore_eq_dec (fuel : Nat) : ∀ (n : Nat) (acc : List Char), n < fuel →
    Nat.toDigitsCore 10 fuel n acc = dec_digits n ++ acc := by
  induction fuel with
  | zero => omega
  | succ fuel ih =>
    intro n acc hn
    rw [Nat.toDigitsCore]
    by_cases h10 : n / 10 = 0
    · have hlt : n < 10 := by omega
      simp [h10, dec_digits_lt n hlt, Nat.mod_eq_of_lt hlt]
    · have hlt : ¬ n < 10 := by omega
      have hfuel : n / 10 < fuel := by omega
      simp only [h10, if_false, ih (n / 10) _ hfuel]
      rw [dec_digits_ge n hlt]
      simp

theorem repr_data_eq (n : Nat) : (Nat.repr n).data = dec_digits n := by
  have h := toDigitsCore_eq_dec (n + 1) n [] (by omega)
  simp [Nat.repr, Nat.toDigits, List.asString, h]

theorem dec_digits_ne_nil (n : Nat) : dec_digits n ≠ [] := by
  by_cases h : n < 10
  · simp [dec_digits_lt n h]
  · simp [dec_digits_ge n h]

theorem dec_digits_isDigit (n : Nat) : ∀ c ∈ dec_digits n, c.isDigit = true := by
  induction n using Nat.strong_induction_on with
  | _ n ih =>
    by_cases h : n < 10
    · simpa [dec_digits_lt n h] using digitChar_isDigit n h
    · intro c hc
      rw [dec_digits_ge n h] at hc
      simp only [List.mem_append, List.mem_singleton] at hc
      rcases hc with hc | hc
      · exact ih (n / 10) (Nat.div_lt_self (by omega) (by omega)) c hc
      · subst hc
        exact digitChar_isDigit (n % 10) (Nat.mod_lt _ (by omega))

theorem dec_digits_inj (m : Nat) : ∀ n, dec_digits m = dec_digits n → m = n := by
  induction m using Nat.strong_induction_on with
  | _ m ih =>
    intro n h
    by_cases hm : m < 10 <;> by_cases hn : n < 10
    · have h' : Nat.digitChar m = Nat.digitChar n := by
        rw [dec_digits_lt m hm, dec_digits_lt n hn] at h
        simpa using h
      exact digitChar_inj m hm n hn h'
    · exfalso
      rw [dec_digits_lt m hm, dec_digits_ge n hn] at h
      have hlen := congrArg List.length h
      simp only [List.length_singleton, List.length_append] at hlen
      exact dec_digits_ne_nil (n / 10) (List.length_eq_zero.mp (by omega))
    · exfalso
      rw [dec_digits_ge m hm, dec_digits_lt n hn] at h
      have hlen := congrArg List.length h
      simp only [List.length_singleton, List.length_append] at hlen
      exact dec_digits_ne_nil (m / 10) (List.length_eq_zero.mp (by omega))
    · rw [dec_digits_ge m hm, dec_digits_ge n hn] at h
      have h' := congrArg List.reverse h
      simp only [List.reverse_append, List.reverse_singleton, List.singleton_append,
        List.cons.injEq] at h'
      have hmod : m % 10 = n % 10 :=
        digitChar_inj _ (Nat.mod_lt _ (by omega)) _ (Nat.mod_lt _ (by omega)) h'.1
      have hdiv : m / 10 = n / 10 :=
        ih (m / 10) (Nat.div_lt_self (by omega) (by omega)) (n / 10)
          (List.reverse_injective h'.2)
      omega

theorem repr_inj (m n : Nat) (h : Nat.repr m = Nat.repr n) : m = n := by
  apply dec_digits_inj
  rw [← repr_data_eq, ← repr_data_eq, h]

theorem repr_no_underscore (n : Nat) : ∀ c ∈ (Nat.repr n).data, c ≠ '_' := by
  intro c hc
  rw [repr_data_eq] at hc
  have := dec_digits_isDigit n c hc
  intro h
  subst h
  simp [Char.isDigit] at this

theorem underscore_split (A : List Char) : ∀ (B r1 r2 : List Char),
    (∀ c ∈ A, c ≠ '_') → (∀ c ∈ B, c ≠ '_') →
    A ++ '_' :: r1 = B ++ '_' :: r2 → A = B ∧ r1 = r2 := by
  induction A with
  | nil =>
    intro B r1 r2 _ hB h
    cases B with
    | nil => simpa using h
    | cons b B =>
      simp only [List.nil_append, List.cons_append, List.cons.injEq] at h
      exact absurd h.1.symm (hB b (by simp))
  | cons a A ih =>
    intro B r1 r2 hA hB h
    cases B with
    | nil =>
      simp only [List.nil_append, List.cons_append, List.cons.injEq] at h
      exact absurd h.1 (hA a (by simp))
    | cons b B =>
      simp only [List.cons_append, List.cons.injEq] at h
      obtain ⟨hab, hrest⟩ := h
      obtain ⟨hAB, hr⟩ := ih B r1 r2 (fun c hc => hA c (by simp [hc]))
        (fun c hc => hB c (by simp [hc])) hrest
      exact ⟨by rw [hab, hAB], hr⟩

theorem node_id_of_inj : Function.Injective node_id_of := by
  intro p q h
  have hd := congrArg String.data h
  simp only [node_id_of, String.data_append] at hd
  have hd' : p.2.data ++ '_' :: (Nat.repr p.1).data = q.2.data ++ '_' :: (Nat.repr q.1).data := by
    simpa [List.append_assoc, List.singleton_append] using hd
  have hrev := congrArg List.reverse hd'
  simp only [List.reverse_append, List.reverse_cons, List.append_assoc,
    List.singleton_append] at hrev
  obtain ⟨h1, h2⟩ := underscore_split _ _ _ _
    (fun c hc => repr_no_underscore p.1 c (List.mem_reverse.mp hc))
    (fun c hc => repr_no_underscore q.1 c (List.mem_reverse.mp hc)) hrev
  have hfst : p.1 = q.1 := by
    apply repr_inj
    apply String.ext
    exact List.reverse_injective h1
  have hsnd : p.2 = q.2 := by
    apply String.ext
    exact List.reverse_injective h2
  exact Prod.ext hfst hsnd

/-! ### Chain and id lemmas -/

theorem chain_edges_map_target (prev : String) (xs : List String) :
    (chain_edges prev xs).map Edge.target = xs := by
  induction xs generalizing prev with
  | nil => rfl
  | cons x xs ih => simp only [chain_edges, List.map_cons, ih]

theorem chain_edges_map_source (prev : String) (xs : List String) :
    (chain_edges prev xs).map Edge.source = (prev :: xs).dropLast := by
  induction xs generalizing prev with
  | nil => rfl
  | cons x xs ih =>
    simp only [chain_edges, List.map_cons, ih]
    rfl

theorem chain_edges_length (prev : String) (xs : List String) :
    (chain_edges prev xs).length = xs.length := by
  induction xs generalizing prev with
  | nil => rfl
  | cons x xs ih => simp [chain_edges, ih]

theorem chain_edges_mem (prev : String) (xs : List String) (e : Edge)
    (he : e ∈ chain_edges prev xs) : e.source ∈ prev :: xs ∧ e.target ∈ xs := by
  induction xs generalizing prev with
  | nil => cases he
  | cons x xs ih =>
    cases he with
    | head => exact ⟨by simp, by simp⟩
    | tail _ h =>
      obtain ⟨h1, h2⟩ := ih x h
      exact ⟨List.mem_cons_of_mem _ h1, List.mem_cons_of_mem _ h2⟩

theorem chain_last_concat (prev : String) (xs : List String) (y : String) :
    chain_last prev (xs ++ [y]) = y := by
  induction xs generalizing prev with
  | nil => rfl
  | cons x xs ih => exact ih x

theorem emitted_nodup (node_types : List String) : (emitted node_types).Nodup := by
  apply List.Nodup.filter
  apply List.Nodup.of_map Prod.fst
  rw [List.enum_map_fst]
  exact List.nodup_range _

theorem emitted_ids_nodup (node_types : List String) :
    ((emitted node_types).map node_id_of).Nodup :=
  (emitted_nodup node_types).map node_id_of_inj

theorem node_id_has_underscore (p : Nat × String) : '_' ∈ (node_id_of p).data := by
  simp [node_id_of, String.data_append]

theorem node_id_ne_start (p : Nat × String) : node_id_of p ≠ "start" := by
  intro h
  have hm := node_id_has_underscore p
  rw [h] at hm
  exact absurd hm (by decide)

theorem node_id_ne_end (p : Nat × String) : node_id_of p ≠ "end" := by
  intro h
  have hm := node_id_has_underscore p
  rw [h] at hm
  exact absurd hm (by decide)

theorem graph_ids_nodup (node_types : List String) :
    ("start" :: ((emitted node_types).map node_id_of
      ++ (if "end" ∈ node_types then [] else ["end"]))).Nodup := by
  by_cases hend : "end" ∈ node_types
  · simp only [hend, if_true, List.append_nil]
    refine List.nodup_cons.mpr ⟨?_, emitted_ids_nodup _⟩
    intro hmem
    obtain ⟨p, _, hp⟩ := List.mem_map.mp hmem
    exact node_id_ne_start p hp
  · simp only [hend, if_false]
    refine List.nodup_cons.mpr ⟨?_, ?_⟩
    · intro hmem
      rcases List.mem_append.mp hmem with hm | hm
      · obtain ⟨p, _, hp⟩ := List.mem_map.mp hm
        exact node_id_ne_start p hp
      · simp only [List.mem_singleton] at hm
        exact absurd hm (by decide)
    · refine List.Nodup.append (emitted_ids_nodup _) (List.nodup_singleton _) ?_
      intro x hx hx2
      simp only [List.mem_singleton] at hx2
      subst hx2
      obtain ⟨p, _, hp⟩ := List.mem_map.mp hx
      exact node_id_ne_end p hp

theorem mem_emitted_snd (node_types : List String) (p : Nat × String)
    (hp : p ∈ emitted node_types) : p.2 ∈ node_types := by
  have h1 : p ∈ node_types.enum := List.mem_of_mem_filter hp
  have h2 : p.2 ∈ node_types.enum.map Prod.snd := List.mem_map_of_mem Prod.snd h1
  rwa [List.enum_map_snd] at h2

/-! ### Language independence of everything but titles -/

theorem create_node_strip_title (t id lang lang' : String) :
    remove_field "title" (create_node t id lang).data =
      remove_field "title" (create_node t id lang').data := by
  by_cases h1 : t = "llm"
  · subst h1; rfl
  by_cases h2 : t = "knowledge-retrieval"
  · subst h2; rfl
  by_cases h3 : t = "http-request"
  · subst h3; rfl
  by_cases h4 : t = "code"
  · subst h4; rfl
  by_cases h5 : t = "template-transform"
  · subst h5; rfl
  by_cases h6 : t = "answer"
  · subst h6; rfl
  by_cases h7 : t = "if-else"
  · subst h7; rfl
  by_cases h8 : t = "iteration"
  · subst h8; rfl
  · simp only [create_node, h1, h2, h3, h4, h5, h6, h7, h8, if_false]
    rfl

theorem create_node_type_tag (t id lang : String) :
    jlookup (create_node t id lang).data "type" = some (.str t) := by
  by_cases h1 : t = "llm"
  · subst h1; rfl
  by_cases h2 : t = "knowledge-retrieval"
  · subst h2; rfl
  by_cases h3 : t = "http-request"
  · subst h3; rfl
  by_cases h4 : t = "code"
  · subst h4; rfl
  by_cases h5 : t = "template-transform"
  · subst h5; rfl
  by_cases h6 : t = "answer"
  · subst h6; rfl
  by_cases h7 : t = "if-else"
  · subst h7; rfl
  by_cases h8 : t = "iteration"
  · subst h8; rfl
  · simp only [create_node, h1, h2, h3, h4, h5, h6, h7, h8, if_false]
    rfl

theorem create_start_node_eq (vs : List VarDict) (language : String)
    (fv : List JValue) (h : vs.mapM format_variable = .ok fv) :
    create_start_node vs language = .ok (start_node_of fv language) := by
  unfold create_start_node
  rw [h]
  rfl

theorem generate_workflow_graph_eq (node_types : List String) (vs : List VarDict)
    (language : String) (fv : List JValue) (h : vs.mapM format_variable = .ok fv) :
    generate_workflow_graph node_types vs language = .ok
      ⟨start_node_of fv language ::
         ((emitted node_types).map (fun p => create_node p.2 (node_id_of p) language)
           ++ (if "end" ∈ node_types then [] else [create_end_node language])),
       chain_edges "start"
         ((emitted node_types).map node_id_of
           ++ (if "end" ∈ node_types then [] else ["end"]))⟩ := by
  unfold generate_workflow_graph
  rw [create_start_node_eq vs language fv h]
  simp only [Bind.bind, Except.bind, build_nodes_eq, start_node_of, emitted]
  by_cases hend : "end" ∈ node_types
  · simp [hend, Pure.pure, Except.pure]
  · simp [hend, chain_edges_concat, create_end_node_id, Pure.pure, Except.pure]

theorem mem_enum_snd (l : List String) (p : Nat × String) (hp : p ∈ l.enum) : p.2 ∈ l := by
  have h2 := List.mem_map_of_mem Prod.snd hp
  rwa [List.enum_map_snd] at h2

theorem emitted_eq_enum (node_types : List String) (h : ∀ k ∈ node_types, k ≠ "start") :
    emitted node_types = node_types.enum :=
  List.filter_eq_self.mpr fun p hp => by
    simpa using h p.2 (mem_enum_snd node_types p hp)

theorem generate_ok_mapM (node_types : List String) (vs : List VarDict)
    (language : String) (g : Graph)
    (hg : generate_workflow_graph node_types vs language = .ok g) :
    ∃ fv, vs.mapM format_variable = .ok fv := by
  cases e : vs.mapM format_variable with
  | ok fv => exact ⟨fv, rfl⟩
  | error msg =>
    exfalso
    unfold generate_workflow_graph create_start_node at hg
    rw [e] at hg
    simp [Bind.bind, Except.bind] at hg

/-- The graph a successful run returns is the explicit chain shape. -/
theorem generate_ok_shape (node_types : List String) (vs : List VarDict)
    (language : String) (g : Graph)
    (hg : generate_workflow_graph node_types vs language = .ok g) :
    ∃ fv, vs.mapM format_variable = .ok fv ∧
      g = ⟨start_node_of fv language ::
             ((emitted node_types).map (fun p => create_node p.2 (node_id_of p) language)
               ++ (if "end" ∈ node_types then [] else [create_end_node language])),
           chain_edges "start"
             ((emitted node_types).map node_id_of
               ++ (if "end" ∈ node_types then [] else ["end"]))⟩ := by
  obtain ⟨fv, hfv⟩ := generate_ok_mapM node_types vs language g hg
  have hchar := generate_workflow_graph_eq node_types vs language fv hfv
  rw [hg] at hchar
  exact ⟨fv, hfv, Except.ok.inj hchar⟩

/-- C2: for every explicit input whose `node_types` sequence `[k1..kn]`
contains no `start` and no `end` entry, the output graph has exactly
`n + 2` nodes — the auto-added `start` node first, then one node per `ki`
with id `ki_i` in order, then the auto-added `end` node — and exactly
`n + 1` edges forming one linear chain from `start` to `end`. -/
theorem C2_explicit_linear_chain (node_types : List String) (vs : List VarDict)
    (language : String) (g : Graph)
    (hk : ∀ k ∈ node_types, k ≠ "start" ∧ k ≠ "end")
    (hg : generate_workflow_graph node_types vs language = .ok g) :
    g.nodes.length = node_types.length + 2 ∧
    g.nodes.map Node.id = "start" :: (node_types.enum.map node_id_of ++ ["end"]) ∧
    g.edges.length = node_types.length + 1 ∧
    g.edges = chain_edges "start" (node_types.enum.map node_id_of ++ ["end"]) := by
  obtain ⟨fv, _, rfl⟩ := generate_ok_shape node_types vs language g hg
  have hend : "end" ∉ node_types := fun hm => (hk _ hm).2 rfl
  have hstart : ∀ k ∈ node_types, k ≠ "start" := fun k hm => (hk k hm).1
  rw [emitted_eq_enum node_types hstart]
  simp only [hend, if_false]
  refine ⟨?_, ?_, ?_, trivial⟩
  · simp [List.enum_length]
  · simp only [List.map_cons, List.map_append, List.map_map, Function.comp_def,
      create_node_id, List.map_singleton]
    rfl
  · rw [chain_edges_length]
    simp [List.enum_length]

theorem C2_explicit_linear_chain_witness :
    (built_graph ["llm", "answer"] [] "en").nodes.map Node.id =
      ["start", "llm_0", "answer_1", "end"] ∧
    (built_graph ["llm", "answer"] [] "en").edges =
      [⟨"start-llm_0", "start", "llm_0"⟩,
       ⟨"llm_0-answer_1", "llm_0", "answer_1"⟩,
       ⟨"answer_1-end", "answer_1", "end"⟩] := by
  have h := C2_explicit_linear_chain ["llm", "answer"] [] "en"
    (built_graph ["llm", "answer"] [] "en") (by decide) rfl
  refine ⟨?_, ?_⟩
  · rw [h.2.1]; rfl
  · rw [h.2.2.2]; rfl

theorem generate_ok_ids (node_types : List String) (vs : List VarDict)
    (language : String) (g : Graph)
    (hg : generate_workflow_graph node_types vs language = .ok g) :
    g.nodes.map Node.id = "start" :: ((emitted node_types).map node_id_of
      ++ (if "end" ∈ node_types then [] else ["end"])) := by
  obtain ⟨fv, _, rfl⟩ := generate_ok_shape node_types vs language g hg
  by_cases hend : "end" ∈ node_types <;>
    simp [hend, List.map_map, Function.comp_def, create_node_id, start_node_of, create_end_node]

/-- C3 (amended): on every successful run the node ids are unique, every
edge references only present node ids, and the edge sequence read in order
is one linear chain beginning at the `start`-tagged first node; the chain
ends at the `end`-tagged node whenever no literal `end` entry occurs in
`node_types` (with a literal `end` entry the auto-appended `end` node is
suppressed and the chain ends at the node of the last non-`start` entry,
whatever its tag). -/
theorem C3_graph_invariants (node_types : List String) (vs : List VarDict)
    (language : String) (g : Graph)
    (hg : generate_workflow_graph node_types vs language = .ok g) :
    (g.nodes.map Node.id).Nodup ∧
    (∀ e ∈ g.edges, e.source ∈ g.nodes.map Node.id ∧ e.target ∈ g.nodes.map Node.id) ∧
    (g.nodes.map Node.id).head? = some "start" ∧
    g.edges = chain_edges "start" (g.nodes.map Node.id).tail ∧
    (∀ n, g.nodes.head? = some n → jlookup n.data "type" = some (.str "start")) ∧
    ("end" ∉ node_types → ∀ n, g.nodes.getLast? = some n →
      n.id = "end" ∧ jlookup n.data "type" = some (.str "end") ∧
      chain_last "start" (g.nodes.map Node.id).tail = "end") := by
  have hmap := generate_ok_ids node_types vs language g hg
  obtain ⟨fv, hfv, rfl⟩ := generate_ok_shape node_types vs language g hg
  refine ⟨?_, ?_, ?_, ?_, ?_, ?_⟩
  · rw [hmap]
    exact graph_ids_nodup node_types
  · intro e he
    rw [hmap]
    obtain ⟨h1, h2⟩ := chain_edges_mem _ _ e he
    exact ⟨h1, List.mem_cons_of_mem _ h2⟩
  · rw [hmap]
    rfl
  · rw [hmap]
    rfl
  · intro n hn
    simp only [List.head?_cons, Option.some.injEq] at hn
    subst hn
    rfl
  · intro hend n hl
    rw [hmap]
    simp only [hend, if_false] at hl ⊢
    rw [show start_node_of fv language ::
          ((emitted node_types).map (fun p => create_node p.2 (node_id_of p) language)
            ++ [create_end_node language]) =
        (start_node_of fv language ::
          (emitted node_types).map (fun p => create_node p.2 (node_id_of p) language))
            ++ [create_end_node language] from by simp] at hl
    rw [List.getLast?_concat] at hl
    obtain rfl := (Option.some.injEq _ _).mp hl.symm
    refine ⟨rfl, rfl, ?_⟩
    exact chain_last_concat "start" _ "end"

theorem C3_counterexample :
    (built_graph ["end", "llm"] [] "en").nodes.map Node.id = ["start", "end_0", "llm_1"] ∧
    (built_graph ["end", "llm"] [] "en").edges =
      [⟨"start-end_0", "start", "end_0"⟩, ⟨"end_0-llm_1", "end_0", "llm_1"⟩] ∧
    ((built_graph ["end", "llm"] [] "en").nodes.getLast?).map (fun n => jlookup n.data "type")
      = some (some (.str "llm")) ∧
    JValue.str "llm" ≠ JValue.str "end" := by
  refine ⟨rfl, rfl, rfl, ?_⟩
  intro h
  injection h with h'
  exact absurd h' (by decide)

theorem C3_graph_invariants_witness :
    ((built_graph ["llm"] [] "en").nodes.map Node.id).Nodup ∧
    (built_graph ["llm"] [] "en").edges =
      chain_edges "start" ((built_graph ["llm"] [] "en").nodes.map Node.id).tail := by
  have h := C3_graph_invariants ["llm"] [] "en" (built_graph ["llm"] [] "en") rfl
  exact ⟨h.1, h.2.2.2.1⟩

theorem emitted_pairwise (node_types : List String) :
    (emitted node_types).Pairwise (fun a b => a.1 < b.1) := by
  apply List.Pairwise.filter
  have h := List.pairwise_lt_range node_types.length
  rw [← List.enum_map_fst node_types] at h
  exact List.pairwise_map.mp h

theorem countP_eq_one_of_nodup (xs : List String) (hx : xs.Nodup) (y : String)
    (hy : y ∈ xs) : xs.countP (fun x => x = y) = 1 := by
  induction xs with
  | nil => cases hy
  | cons a l ih =>
    rw [List.countP_cons]
    rcases List.mem_cons.mp hy with rfl | hmem
    · have h0 : l.countP (fun x => x = y) = 0 := by
        apply List.countP_eq_zero.mpr
        intro b hb
        simp only [decide_eq_true_eq]
        intro hby
        subst hby
        exact (List.nodup_cons.mp hx).1 hb
      simp [h0]
    · have ha : ¬ (a = y) := by
        intro h
        subst h
        exact (List.nodup_cons.mp hx).1 hmem
      rw [ih (List.nodup_cons.mp hx).2 hmem]
      simp [ha]

theorem chain_edges_countP_target (prev : String) (xs : List String) (y : String) :
    (chain_edges prev xs).countP (fun e => e.target = y) =
      xs.countP (fun x => x = y) := by
  induction xs generalizing prev with
  | nil => rfl
  | cons x xs ih => simp [chain_edges, List.countP_cons, ih x]

theorem mem_map_dropLast_iff (l : List (Nat × String))
    (hl : l.Pairwise (fun a b => a.1 < b.1)) (p : Nat × String) (hp : p ∈ l) :
    node_id_of p ∈ (l.map node_id_of).dropLast ↔ ∃ q ∈ l, p.1 < q.1 := by
  induction l with
  | nil => cases hp
  | cons a l ih =>
    rcases List.mem_cons.mp hp with rfl | hp'
    · cases l with
      | nil =>
        constructor
        · intro h
          exact absurd h (by simp)
        · rintro ⟨q, hq, hlt⟩
          simp only [List.mem_singleton] at hq
          subst hq
          omega
      | cons b l' =>
        constructor
        · intro _
          exact ⟨b, by simp, (List.pairwise_cons.mp hl).1 b (by simp)⟩
        · intro _
          rw [List.map_cons, List.map_cons, List.dropLast_cons₂]
          exact List.mem_cons_self _ _
    · have hal : a.1 < p.1 := (List.pairwise_cons.mp hl).1 p hp'
      have hIH := ih (List.pairwise_cons.mp hl).2 hp'
      cases l with
      | nil => cases hp'
      | cons b l' =>
        rw [List.map_cons, List.map_cons, List.dropLast_cons₂, ← List.map_cons]
        constructor
        · intro hmem
          rcases List.mem_cons.mp hmem with heq | hmem'
          · have := node_id_of_inj heq
            subst this
            omega
          · obtain ⟨q, hq, hlt⟩ := hIH.mp hmem'
            exact ⟨q, List.mem_cons_of_mem _ hq, hlt⟩
        · rintro ⟨q, hq, hlt⟩
          rcases List.mem_cons.mp hq with rfl | hq'
          · omega
          · exact List.mem_cons_of_mem _ (hIH.mpr ⟨q, hq', hlt⟩)

theorem mem_emitted_iff (node_types : List String) (i : Nat) (t : String)
    (ht : t ≠ "start") :
    (i, t) ∈ emitted node_types ↔ node_types[i]? = some t := by
  constructor
  · intro h
    have := List.mem_of_mem_filter h
    exact List.mk_mem_enum_iff_getElem?.mp this
  · intro h
    apply List.mem_filter.mpr
    refine ⟨List.mk_mem_enum_iff_getElem?.mpr h, by simpa using ht⟩

/-- C4 (amended): a literal `end` entry at position `i` is handled by the
generic dispatch like any other kind: it yields the node `end_i` with the
minimal `{title, type}` payload, that node receives exactly one inbound
edge, it receives an outbound edge exactly when some entry other than
`start` follows position `i` (so not when it is last, and also not when
only `start` entries follow), and the fixed-id auto-appended `end` node
and its final edge are absent from the output. -/
theorem C4_explicit_end_entry (node_types : List String) (vs : List VarDict)
    (language : String) (g : Graph) (i : Nat)
    (hi : node_types[i]? = some "end")
    (hg : generate_workflow_graph node_types vs language = .ok g) :
    (Node.mk (node_id_of (i, "end")) .null
        (.obj [("title", .str "END"), ("type", .str "end")]) ∈ g.nodes) ∧
    g.edges.countP (fun e => e.target = node_id_of (i, "end")) = 1 ∧
    ((∃ e ∈ g.edges, e.source = node_id_of (i, "end")) ↔
      ∃ j, i < j ∧ ∃ t, node_types[j]? = some t ∧ t ≠ "start") ∧
    (∀ n ∈ g.nodes, n.id ≠ "end") ∧
    (∀ e ∈ g.edges, e.source ≠ "end" ∧ e.target ≠ "end") := by
  have hend : "end" ∈ node_types := by
    have := List.mk_mem_enum_iff_getElem?.mpr hi
    exact mem_enum_snd node_types (i, "end") this
  have hpmem : (i, "end") ∈ emitted node_types :=
    (mem_emitted_iff node_types i "end" (by decide)).mpr hi
  obtain ⟨fv, hfv, rfl⟩ := generate_ok_shape node_types vs language g hg
  simp only [hend, if_true, List.append_nil]
  have hidmem : node_id_of (i, "end") ∈ (emitted node_types).map node_id_of :=
    List.mem_map_of_mem node_id_of hpmem
  refine ⟨?_, ?_, ?_, ?_, ?_⟩
  · apply List.mem_cons_of_mem
    have hc : create_node "end" (node_id_of (i, "end")) language =
        Node.mk (node_id_of (i, "end")) .null
          (.obj [("title", .str "END"), ("type", .str "end")]) := rfl
    rw [← hc]
    exact List.mem_map_of_mem _ hpmem
  · rw [chain_edges_countP_target]
    exact countP_eq_one_of_nodup _ (emitted_ids_nodup node_types) _ hidmem
  · have hsrc : ∀ e ∈ chain_edges "start" ((emitted node_types).map node_id_of),
        e.source ∈ ("start" :: (emitted node_types).map node_id_of).dropLast := by
      intro e he
      rw [← chain_edges_map_source]
      exact List.mem_map_of_mem Edge.source he
    constructor
    · rintro ⟨e, he, hes⟩
      have hmem := hsrc e he
      rw [hes] at hmem
      have hne : (emitted node_types).map node_id_of ≠ [] :=
        List.ne_nil_of_mem hidmem
      rw [List.dropLast_cons_of_ne_nil hne] at hmem
      rcases List.mem_cons.mp hmem with heq | hmem'
      · exact absurd heq (node_id_ne_start (i, "end"))
      · obtain ⟨q, hq, hlt⟩ :=
          (mem_map_dropLast_iff (emitted node_types) (emitted_pairwise node_types)
            (i, "end") hpmem).mp hmem'
        refine ⟨q.1, hlt, q.2, ?_, ?_⟩
        · exact (List.mem_of_mem_filter hq) |> List.mk_mem_enum_iff_getElem?.mp
        · have := List.of_mem_filter hq
          simpa using this
    · rintro ⟨j, hij, t, hjt, hts⟩
      have hqmem : (j, t) ∈ emitted node_types :=
        (mem_emitted_iff node_types j t hts).mpr hjt
      have hmem' :=
        (mem_map_dropLast_iff (emitted node_types) (emitted_pairwise node_types)
          (i, "end") hpmem).mpr ⟨(j, t), hqmem, hij⟩
      have hmem : node_id_of (i, "end") ∈
          ("start" :: (emitted node_types).map node_id_of).dropLast := by
        have hne : (emitted node_types).map node_id_of ≠ [] :=
          List.ne_nil_of_mem hidmem
        rw [List.dropLast_cons_of_ne_nil hne]
        exact List.mem_cons_of_mem _ hmem'
      rw [← chain_edges_map_source] at hmem
      obtain ⟨e, he, hes⟩ := List.mem_map.mp hmem
      exact ⟨e, he, hes⟩
  · intro n hn
    rcases List.mem_cons.mp hn with rfl | hn'
    · intro h
      have hse : ("start" : String) = "end" := h
      exact absurd hse (by decide)
    · obtain ⟨p, hp, rfl⟩ := List.mem_map.mp hn'
      rw [create_node_id]
      exact node_id_ne_end p
  · intro e he
    obtain ⟨h1, h2⟩ := chain_edges_mem _ _ e he
    constructor
    · rcases List.mem_cons.mp h1 with heq | hm
      · rw [heq]
        decide
      · obtain ⟨p, _, hps⟩ := List.mem_map.mp hm
        rw [← hps]
        exact node_id_ne_end p
    · obtain ⟨p, _, hps⟩ := List.mem_map.mp h2
      rw [← hps]
      exact node_id_ne_end p

theorem C4_counterexample :
    ((["end", "start"] : List String)[0]? = some "end") ∧
    (0 : Nat) ≠ (["end", "start"] : List String).length - 1 ∧
    (built_graph ["end", "start"] [] "en").edges = [⟨"start-end_0", "start", "end_0"⟩] ∧
    (built_graph ["end", "start"] [] "en").edges.countP
      (fun e => e.source = "end_0") = 0 := by
  exact ⟨rfl, by decide, rfl, rfl⟩

theorem C4_explicit_end_entry_witness :
    (Node.mk (node_id_of (1, "end")) .null
        (.obj [("title", .str "END"), ("type", .str "end")])
      ∈ (built_graph ["llm", "end"] [] "en").nodes) ∧
    (built_graph ["llm", "end"] [] "en").edges.countP
      (fun e => e.target = node_id_of (1, "end")) = 1 ∧
    ¬ (∃ e ∈ (built_graph ["llm", "end"] [] "en").edges,
        e.source = node_id_of (1, "end")) ∧
    (∀ n ∈ (built_graph ["llm", "end"] [] "en").nodes, n.id ≠ "end") := by
  have h := C4_explicit_end_entry ["llm", "end"] [] "en"
    (built_graph ["llm", "end"] [] "en") 1 rfl rfl
  refine ⟨h.1, h.2.1, ?_, h.2.2.2.1⟩
  intro hex
  obtain ⟨j, hij, t, hjt, hts⟩ := h.2.2.1.mp hex
  have hlt : j < 2 := by
    by_contra hge
    rw [List.getElem?_eq_none (by simpa using Nat.le_of_not_lt hge)] at hjt
    cases hjt
  omega

/-- C5: `features.retriever_resource` is `{enabled: true}` exactly when
`knowledge-retrieval` occurs among the requested kinds and `{}` otherwise,
and the five non-localized feature fields are the same constants for every
input. -/
theorem C5_features (node_types : List String) (language : String) :
    jlookup (generate_features node_types language) "retriever_resource" =
      some (if "knowledge-retrieval" ∈ node_types
        then .obj [("enabled", .bool true)] else .obj []) ∧
    (JValue.obj [("enabled", .bool true)] ≠ .obj []) ∧
    jlookup (generate_features node_types language) "suggested_questions_after_answer"
      = some (.arr []) ∧
    jlookup (generate_features node_types language) "speech_to_text" = some (.bool false) ∧
    jlookup (generate_features node_types language) "text_to_speech" = some (.bool false) ∧
    jlookup (generate_features node_types language) "file_upload" = some (.bool false) ∧
    jlookup (generate_features node_types language) "sensitive_word_avoidance"
      = some (.bool false) := by
  by_cases hkr : "knowledge-retrieval" ∈ node_types <;>
    by_cases hja : language = "ja" <;>
      simp only [generate_features, hkr, hja, if_true, if_false] <;>
        refine ⟨rfl, ?_, rfl, rfl, rfl, rfl, rfl⟩ <;>
          (intro h; injection h with h'; cases h')

theorem mapM_format_variable_eq (vs : List VarDict)
    (hv : ∀ v ∈ vs, v.name ≠ none ∧ v.type ≠ none) :
    vs.mapM format_variable = .ok (vs.map (fun v => JValue.obj [
      ("variable", .str (v.name.getD "")),
      ("type", .str (v.type.getD "")),
      ("required", .bool true),
      ("default", .str "")])) := by
  induction vs with
  | nil => rfl
  | cons v l ih =>
    obtain ⟨hn, ht⟩ := hv v (by simp)
    obtain ⟨n, hn'⟩ := Option.ne_none_iff_exists'.mp hn
    obtain ⟨t, ht'⟩ := Option.ne_none_iff_exists'.mp ht
    rw [List.mapM_cons, ih (fun w hw => hv w (by simp [hw]))]
    simp only [format_variable, hn', ht', List.map_cons, Option.getD_some]
    rfl

/-- C6 (amended): when no literal `end` entry is present the builder
appends after the loop exactly one node with the fixed id `end` and one
final edge from the last previously-built node to it; the appended node's
outputs are the fixed constant
`[{variable: result, value_selector: [llm, text]}]` — a selector naming
the literal node id `llm` (which the builder never assigns) rather than
the id of the last generated language-model node. -/
theorem C6_auto_end_node (node_types : List String) (vs : List VarDict)
    (language : String) (g : Graph)
    (hend : "end" ∉ node_types)
    (hg : generate_workflow_graph node_types vs language = .ok g) :
    g.nodes.getLast? = some (create_end_node language) ∧
    jlookup (create_end_node language).data "outputs" =
      some (.arr [.obj [("variable", .str "result"),
        ("value_selector", .arr [.str "llm", .str "text"])]]) ∧
    (g.nodes.map Node.id).countP (fun x => x = "end") = 1 ∧
    g.edges = chain_edges "start" ((emitted node_types).map node_id_of) ++
      [⟨chain_last "start" ((emitted node_types).map node_id_of) ++ "-" ++ "end",
        chain_last "start" ((emitted node_types).map node_id_of), "end"⟩] ∧
    g.edges.countP (fun e => e.target = "end") = 1 := by
  have hmap := generate_ok_ids node_types vs language g hg
  have hnodup := graph_ids_nodup node_types
  obtain ⟨fv, hfv, rfl⟩ := generate_ok_shape node_types vs language g hg
  simp only [hend, if_false] at hmap hnodup ⊢
  refine ⟨?_, rfl, ?_, ?_, ?_⟩
  · rw [show start_node_of fv language ::
          ((emitted node_types).map (fun p => create_node p.2 (node_id_of p) language)
            ++ [create_end_node language]) =
        (start_node_of fv language ::
          (emitted node_types).map (fun p => create_node p.2 (node_id_of p) language))
            ++ [create_end_node language] from by simp]
    exact List.getLast?_concat _
  · rw [hmap]
    apply countP_eq_one_of_nodup _ hnodup
    exact List.mem_cons_of_mem _ (List.mem_append_right _ (by simp))
  · exact chain_edges_concat "start" _ "end"
  · rw [chain_edges_concat "start" _ "end", List.countP_append, chain_edges_countP_target]
    have h0 : ((emitted node_types).map node_id_of).countP (fun x => x = "end") = 0 := by
      apply List.countP_eq_zero.mpr
      intro x hx
      obtain ⟨p, _, hps⟩ := List.mem_map.mp hx
      simp only [decide_eq_true_eq]
      rw [← hps]
      exact node_id_ne_end p
    rw [h0]
    rfl

theorem C6_counterexample :
    jlookup (create_end_node "en").data "outputs" =
      some (.arr [.obj [("variable", .str "result"),
        ("value_selector", .arr [.str "llm", .str "text"])]]) ∧
    spec_end_outputs ["llm"] =
      some (.arr [.obj [("variable", .str "result"),
        ("value_selector", .arr [.str "llm_0", .str "text"])]]) ∧
    jlookup (create_end_node "en").data "outputs" ≠ spec_end_outputs ["llm"] ∧
    "llm" ∉ (built_graph ["llm"] [] "en").nodes.map Node.id := by
  refine ⟨rfl, rfl, ?_, by decide⟩
  intro h
  have h2 : ("llm" : String) = "llm_0" :=
    congrArg (fun o : Option JValue =>
      match o with
      | some (.arr (.obj fs :: _)) =>
        match fs.lookup "value_selector" with
        | some (.arr (.str s :: _)) => s
        | _ => ""
      | _ => "") h
  exact absurd h2 (by decide)

theorem C6_auto_end_node_witness :
    (built_graph ["llm"] [] "en").nodes.getLast? = some (create_end_node "en") ∧
    (built_graph ["llm"] [] "en").edges =
      chain_edges "start" ((emitted ["llm"]).map node_id_of) ++
        [⟨chain_last "start" ((emitted ["llm"]).map node_id_of) ++ "-" ++ "end",
          chain_last "start" ((emitted ["llm"]).map node_id_of), "end"⟩] := by
  have h := C6_auto_end_node ["llm"] [] "en" (built_graph ["llm"] [] "en") (by decide) rfl
  exact ⟨h.1, h.2.2.2.1⟩

/-- C7: the start node comes first with fixed id `start`; every
caller-supplied variable is materialized only inside its variable list,
forced to `required = true` and `default = ""` whatever the caller-supplied
`required` flag was, with name and type preserved; the rest of the graph
does not depend on the variables at all. -/
theorem C7_start_node_variables (node_types : List String) (vs : List VarDict)
    (language : String) (g : Graph)
    (hv : ∀ v ∈ vs, v.name ≠ none ∧ v.type ≠ none)
    (hg : generate_workflow_graph node_types vs language = .ok g) :
    (g.nodes.head? = some ⟨"start", .null, .obj [
      ("title", .str (if language = "en" then "START" else "開始")),
      ("type", .str "start"),
      ("variables", .arr (vs.map (fun v => .obj [
        ("variable", .str (v.name.getD "")),
        ("type", .str (v.type.getD "")),
        ("required", .bool true),
        ("default", .str "")])))]⟩) ∧
    (∀ g₀, generate_workflow_graph node_types [] language = .ok g₀ →
      g.nodes.tail = g₀.nodes.tail ∧ g.edges = g₀.edges) := by
  have hfv := mapM_format_variable_eq vs hv
  obtain ⟨fv, hfv', rfl⟩ := generate_ok_shape node_types vs language g hg
  obtain rfl : fv = vs.map _ := by
    rw [hfv] at hfv'
    exact (Except.ok.inj hfv').symm
  constructor
  · rfl
  · intro g₀ hg₀
    obtain ⟨fv₀, hfv₀, rfl⟩ := generate_ok_shape node_types [] language g₀ hg₀
    obtain rfl : fv₀ = [] := (Except.ok.inj hfv₀).symm
    exact ⟨rfl, rfl⟩

theorem C7_start_node_variables_witness :
    (built_graph ["llm"] [⟨some "query", some "string", some false⟩] "en").nodes.head? =
      some ⟨"start", .null, .obj [
        ("title", .str "START"),
        ("type", .str "start"),
        ("variables", .arr [.obj [
          ("variable", .str "query"),
          ("type", .str "string"),
          ("required", .bool true),
          ("default", .str "")]])]⟩ := by
  have h := C7_start_node_variables ["llm"] [⟨some "query", some "string", some false⟩] "en"
    (built_graph ["llm"] [⟨some "query", some "string", some false⟩] "en") (by decide) rfl
  rw [h.1]
  rfl

/-- C8: with `node_types` and `variables` fixed, the `en` and `ja` runs
agree on node ids, positions, all payload fields other than `data.title`,
the node `type` tags, and the whole edge list; the feature blocks agree
once the two localized fields (`opening_statement`, `suggested_questions`)
are removed. -/
theorem C8_language_invariance (node_types : List String) (vs : List VarDict)
    (gEn gJa : Graph)
    (hEn : generate_workflow_graph node_types vs "en" = .ok gEn)
    (hJa : generate_workflow_graph node_types vs "ja" = .ok gJa) :
    gEn.nodes.map Node.id = gJa.nodes.map Node.id ∧
    gEn.nodes.map Node.position = gJa.nodes.map Node.position ∧
    gEn.nodes.map (fun n => remove_field "title" n.data) =
      gJa.nodes.map (fun n => remove_field "title" n.data) ∧
    gEn.nodes.map (fun n => jlookup n.data "type") =
      gJa.nodes.map (fun n => jlookup n.data "type") ∧
    gEn.edges = gJa.edges ∧
    remove_field "opening_statement" (remove_field "suggested_questions"
      (generate_features node_types "en")) =
    remove_field "opening_statement" (remove_field "suggested_questions"
      (generate_features node_types "ja")) := by
  obtain ⟨fvE, hfvE, rfl⟩ := generate_ok_shape node_types vs "en" gEn hEn
  obtain ⟨fvJ, hfvJ, rfl⟩ := generate_ok_shape node_types vs "ja" gJa hJa
  obtain rfl : fvJ = fvE := by
    rw [hfvE] at hfvJ
    exact (Except.ok.inj hfvJ).symm
  refine ⟨?_, ?_, ?_, ?_, rfl, ?_⟩
  · by_cases hend : "end" ∈ node_types <;>
      simp [hend, List.map_map, Function.comp_def, create_node_id,
        start_node_of, create_end_node]
  · by_cases hend : "end" ∈ node_types <;>
      simp [hend, List.map_map, Function.comp_def, create_node_position,
        start_node_of, create_end_node]
  · have hmap : (emitted node_types).map
        (fun p => remove_field "title" (create_node p.2 (node_id_of p) "en").data) =
      (emitted node_types).map
        (fun p => remove_field "title" (create_node p.2 (node_id_of p) "ja").data) :=
      List.map_congr_left fun p _ => create_node_strip_title p.2 (node_id_of p) "en" "ja"
    by_cases hend : "end" ∈ node_types <;>
      (simp only [hend, if_true, if_false, List.append_nil, List.map_cons, List.map_append,
        List.map_map, Function.comp_def, List.map_singleton]
       rw [hmap]
       rfl)
  · have hmap : (emitted node_types).map
        (fun p => jlookup (create_node p.2 (node_id_of p) "en").data "type") =
      (emitted node_types).map
        (fun p => jlookup (create_node p.2 (node_id_of p) "ja").data "type") := by
      apply List.map_congr_left
      intro p _
      rw [create_node_type_tag, create_node_type_tag]
    by_cases hend : "end" ∈ node_types <;>
      (simp only [hend, if_true, if_false, List.append_nil, List.map_cons, List.map_append,
        List.map_map, Function.comp_def, List.map_singleton]
       rw [hmap]
       rfl)
  · by_cases hkr : "knowledge-retrieval" ∈ node_types <;>
      simp only [generate_features, hkr, if_true, if_false] <;> rfl

theorem C8_language_invariance_witness :
    (built_graph ["llm"] [] "en").nodes.map Node.id =
      (built_graph ["llm"] [] "ja").nodes.map Node.id ∧
    (built_graph ["llm"] [] "en").nodes.map (fun n => remove_field "title" n.data) =
      (built_graph ["llm"] [] "ja").nodes.map (fun n => remove_field "title" n.data) ∧
    (built_graph ["llm"] [] "en").edges = (built_graph ["llm"] [] "ja").edges := by
  have h := C8_language_invariance ["llm"] [] (built_graph ["llm"] [] "en")
    (built_graph ["llm"] [] "ja") rfl rfl
  exact ⟨h.1, h.2.2.1, h.2.2.2.2.1⟩

/-- C9: the Node Factory is total — it always returns a node carrying the
requested id, for every tag string — and for a tag outside the nine known
kinds the data payload is exactly the two fields `title` (the upper-cased
tag) and `type` (the tag itself). -/
theorem C9_node_factory_total (node_type node_id language : String) :
    (create_node node_type node_id language).id = node_id ∧
    (node_type ∉ known_node_kinds →
      create_node node_type node_id language =
        ⟨node_id, .null, .obj [("title", .str (py_upper node_type)),
          ("type", .str node_type)]⟩) := by
  refine ⟨create_node_id node_type node_id language, ?_⟩
  intro hk
  simp only [known_node_kinds, List.mem_cons, List.not_mem_nil, or_false, not_or] at hk
  obtain ⟨hstart, hend, h1, h2, h3, h4, h5, h6, h7, h8⟩ := hk
  have hl : node_titles.lookup node_type = none := by
    simp only [node_titles, List.lookup,
      beq_eq_false_iff_ne.mpr h1, beq_eq_false_iff_ne.mpr h2, beq_eq_false_iff_ne.mpr h3,
      beq_eq_false_iff_ne.mpr h4, beq_eq_false_iff_ne.mpr h5, beq_eq_false_iff_ne.mpr h6,
      beq_eq_false_iff_ne.mpr h7, beq_eq_false_iff_ne.mpr h8]
  simp only [create_node, h1, h2, h3, h4, h5, h6, h7, h8, if_false, hl]

theorem C9_node_factory_total_witness :
    (create_node "custom" "custom_7" "en").id = "custom_7" ∧
    create_node "custom" "custom_7" "en" =
      ⟨"custom_7", .null, .obj [("title", .str (py_upper "custom")),
        ("type", .str "custom")]⟩ := by
  have h := C9_node_factory_total "custom" "custom_7" "en"
  exact ⟨h.1, h.2 (by decide)⟩

/-- C1 (amended): when the reply text lacks a `{`/`}` pair in the correct
order, or `json.loads` fails on the extracted substring, `analyze` returns
the fixed default configuration for the requested language,
deterministically; but an error raised by the generative-model client is
not caught inside `analyze` — the `chat_completion` call sits before the
`try` block, the error propagates, and `execute` then returns an explicit
error result rather than the default configuration. -/
theorem C1_analyze_fallback (json_loads : String → Except String JValue)
    (user_input language : String) :
    (∀ content, ¬ brace_ok content →
      analyze (.ok content) json_loads user_input language =
        .ok (get_default_config language)) ∧
    (∀ content e, brace_ok content → json_loads (extract_json content) = .error e →
      analyze (.ok content) json_loads user_input language =
        .ok (get_default_config language)) ∧
    (∀ content v, brace_ok content → json_loads (extract_json content) = .ok v →
      analyze (.ok content) json_loads user_input language = .ok v) ∧
    (∀ e, analyze (.error e) json_loads user_input language = .error e) ∧
    (∀ e workflow_name node_types description vars ui, py_truthy_str ui = true →
      execute (.error e) ui workflow_name node_types description vars language =
        ⟨none, some ("Failed to analyze user input: " ++ e)⟩) := by
  refine ⟨?_, ?_, ?_, ?_, ?_⟩
  · intro content h
    unfold brace_ok at h
    simp only [analyze]
    rw [if_neg h]
  · intro content e hb he
    unfold brace_ok at hb
    unfold extract_json py_slice at he
    simp only [analyze]
    rw [if_pos hb]
    simp only [py_slice, he]
  · intro content v hb he
    unfold brace_ok at hb
    unfold extract_json py_slice at he
    simp only [analyze]
    rw [if_pos hb]
    simp only [py_slice, he]
  · intro e
    rfl
  · intro e workflow_name node_types description vars ui htruthy
    simp only [execute, htruthy, if_true]

/-- C1 counterexample: with a failing generative-model client, `analyze`
does not return the default configuration — the error value propagates to
the caller. -/
theorem C1_counterexample :
    analyze (.error "boom") (fun _ => .error "bad json") "hello" "en" = .error "boom" ∧
    Except.error "boom" ≠
      (Except.ok (get_default_config "en") : Except String JValue) := by
  refine ⟨rfl, ?_⟩
  intro h
  exact Except.noConfusion h

theorem C1_analyze_fallback_witness :
    analyze (.ok "no braces at all") (fun _ => .error "bad") "x" "en" =
      .ok (get_default_config "en") ∧
    analyze (.ok "text \x7b not json \x7d") (fun _ => .error "bad") "x" "en" =
      .ok (get_default_config "en") ∧
    analyze (.error "boom2") (fun _ => .error "bad") "x" "en" = .error "boom2" := by
  have h := C1_analyze_fallback (fun _ => .error "bad") "x" "en"
  exact ⟨h.1 "no braces at all" (by decide),
    h.2.1 "text \x7b not json \x7d" "bad" (by decide) rfl,
    h.2.2.2.1 "boom2"⟩

/-- C10: `execute` never exposes both an output document and an error at
once; and on a concrete explicit input whose variables entry lacks its
`name` key it returns an error result wrapping the `KeyError` message and
no document at all. -/
theorem C10_exclusive_result (analyzeResult : Except String IntentConfig)
    (user_input workflow_name : Option String) (node_types : Option (List String))
    (description : Option String) (vars : Option (List VarDict)) (language : String) :
    (∀ doc msg, execute analyzeResult user_input workflow_name node_types description vars
        language ≠ ⟨some doc, some msg⟩) ∧
    (execute (.ok ⟨none, none, none, none⟩) none (some "W") (some ["llm"]) (some "")
        (some [⟨none, some "string", none⟩]) "en").output = none ∧
    (execute (.ok ⟨none, none, none, none⟩) none (some "W") (some ["llm"]) (some "")
        (some [⟨none, some "string", none⟩]) "en").error =
      some "Failed to generate workflow DSL: \x27name\x27" := by
  refine ⟨?_, rfl, rfl⟩
  intro doc msg h
  simp only [execute] at h
  split at h
  · simp at h
  · split at h
    · simp at h
    · simp at h

theorem C10_exclusive_result_witness :
    execute (.ok ⟨none, none, none, none⟩) none (some "W") (some ["llm"]) (some "")
      (some []) "en" ≠ ⟨some ⟨"W", some "", ⟨[], []⟩, .null⟩, some "msg"⟩ :=
  (C10_exclusive_result (.ok ⟨none, none, none, none⟩) none (some "W") (some ["llm"])
    (some "") (some []) "en").1 ⟨"W", some "", ⟨[], []⟩, .null⟩ "msg"

end OpenManus
